import Mathlib

/-!
Shallow embedding of the format-dispatch and conversion-orchestration layer of
the universal-file-converter application: `src/main.py` (ConversionWorker.run,
FileConverterApp.get_converter_for_format), `src/utils/file_utils.py`
(get_file_type, get_output_path) and the four converter modules under
`src/converters/`.

Python strings are Lean `String`s, the filesystem and the external delegate
libraries (Pillow, pydub, MoviePy, the document libraries / LibreOffice
subprocess) are explicit parameters, and Python code that can raise is
modelled with `Except`.  The numeric expression `int((i / total) * 100)` in
the worker is modelled bit-faithfully to Python's IEEE-754 binary64
semantics: a correctly rounded (round-to-nearest, ties-to-even) division,
a correctly rounded multiplication by 100, then truncation toward zero —
implemented over exact integer arithmetic (`pyPercent`), with an unbounded
exponent range, which coincides with binary64 for every magnitude these
percentages can take (no overflow, no subnormals).
-/

/-- Abstract filesystem state: whether a path exists, whether opening it for
reading succeeds, and the image signature `imghdr` would sniff from its
bytes. -/
structure FileSystem where
  pathExists : String → Bool
  readable : String → Bool
  imghdrSig : String → Option String

/-- An exception escaping a Python call (OSError, PermissionError,
IsADirectoryError, a delegate-library error, ...). -/
inductive PyError
  | oserror
deriving DecidableEq

/-- Index of the last occurrence of `c` in `l` (Python `str.rfind`),
`none` when `c` does not occur. -/
def rfindIdx (c : Char) (l : List Char) : Option Nat :=
  match l.reverse.findIdx? (fun a => a == c) with
  | none => none
  | some j => some (l.length - 1 - j)

/-- `os.path.splitext` (posixpath): the extension starts at the last dot,
provided that dot lies after the last path separator and the basename does
not consist solely of leading dots up to it. -/
def splitextChars (l : List Char) : List Char × List Char :=
  match rfindIdx '.' l with
  | none => (l, [])
  | some d =>
    let s : Nat :=
      match rfindIdx '/' l with
      | none => 0
      | some i => i + 1
    if s ≤ d then
      if ((l.drop s).take (d - s)).any (fun c => c != '.') then (l.take d, l.drop d)
      else (l, [])
    else (l, [])

/-- `os.path.basename`: the part of the path after the last slash. -/
def basenameChars (l : List Char) : List Char :=
  (l.reverse.takeWhile (fun c => c != '/')).reverse

def basename (p : String) : String :=
  ⟨basenameChars p.data⟩

/-- `os.path.join(d, f)` for a single extra component (posixpath semantics). -/
def joinChars (d : List Char) (f : List Char) : List Char :=
  if f.head? = some '/' then f
  else if d = [] ∨ d.getLast? = some '/' then d ++ f
  else d ++ '/' :: f

/-- `output_format.lower().replace(".", "")`: the normalization performed in
`file_utils.get_output_path` and at the top of each converter's `convert`.
Note that `replace(".", "")` removes every dot, not only a leading one. -/
def normalize_output_format (s : String) : String :=
  ⟨(s.data.map Char.toLower).filter (fun c => c != '.')⟩

/-- `os.path.splitext(p)[1][1:].lower()`: the input-extension parsing shared
by the four converters. -/
def input_extension_of (p : String) : String :=
  ⟨((splitextChars p.data).2.drop 1).map Char.toLower⟩

/-- `os.path.splitext(p)[1].lower().replace(".", "")`
(`file_utils.get_file_type`, line 24). -/
def file_extension_of (p : String) : String :=
  ⟨((splitextChars p.data).2.map Char.toLower).filter (fun c => c != '.')⟩

/-- `file_utils.get_output_path` (lines 64-86). -/
def get_output_path (input_path output_format output_dir : String) : String :=
  let base_name := (splitextChars (basenameChars input_path.data)).1
  let fmt := (normalize_output_format output_format).data
  ⟨joinChars output_dir.data (base_name ++ '.' :: fmt)⟩

/-- Spec-side normalization, used only to state claim C3 exactly as written:
lower-case the output format and strip one leading dot (the spec's words,
in contrast to the code's removal of every dot). -/
def specStripLeadingDot (s : String) : String :=
  ⟨match s.data.map Char.toLower with
   | '.' :: rest => rest
   | l => l⟩

/-- Image extension set of `get_file_type` (file_utils.py line 30). -/
def image_extensions : List String :=
  ["png", "jpg", "jpeg", "gif", "webp", "tiff", "bmp", "svg", "raw", "psd"]

/-- Video extension set of `get_file_type` (file_utils.py line 33). -/
def video_extensions : List String :=
  ["mp4", "avi", "mkv", "mov", "webm", "flv", "wmv", "m4v", "3gp"]

/-- Document extension set of `get_file_type` (file_utils.py lines 36-39). -/
def document_extensions : List String :=
  ["pdf", "docx", "doc", "txt", "rtf", "odt", "xlsx", "xls",
   "csv", "pptx", "ppt", "html", "md", "json", "xml"]

/-- Audio extension set of `get_file_type` (file_utils.py line 42). -/
def audio_extensions : List String :=
  ["mp3", "wav", "flac", "aac", "ogg", "wma", "m4a"]

/-- Python truthiness pattern `mime_type and mime_type.startswith(top)` on the
optional MIME guess. -/
def mimeHasTop (mime : Option String) (top : String) : Bool :=
  match mime with
  | none => false
  | some m => top.isPrefixOf m

/-- `imghdr.what`: opens the file and sniffs an image signature.  Opening an
unreadable or non-regular path raises an OSError, which propagates (Python
stdlib behaviour of `open(file, 'rb')` inside `imghdr.what`). -/
def imghdr_what (fs : FileSystem) (p : String) : Except PyError (Option String) :=
  if fs.readable p then .ok (fs.imghdrSig p) else .error .oserror

/-- `file_utils.get_file_type` (lines 10-61); `guessType` stands for the
extension-table lookup `mimetypes.guess_type`. -/
def get_file_type (fs : FileSystem) (guessType : String → Option String)
    (file_path : String) : Except PyError String :=
  if !(fs.pathExists file_path) then .ok "unknown"
  else
    let file_extension := file_extension_of file_path
    let mime_type := guessType file_path
    if image_extensions.contains file_extension || mimeHasTop mime_type "image/" then
      .ok "image"
    else if video_extensions.contains file_extension || mimeHasTop mime_type "video/" then
      .ok "video"
    else if document_extensions.contains file_extension ||
        (mimeHasTop mime_type "application/" || mimeHasTop mime_type "text/") then
      .ok "document"
    else if audio_extensions.contains file_extension || mimeHasTop mime_type "audio/" then
      .ok "audio"
    else
      match imghdr_what fs file_path with
      | .error e => .error e
      | .ok (some _) => .ok "image"
      | .ok none => .ok "unknown"

/-- The option-dictionary keys the converters and worker read
(`options.get("quality")`, `options.get("overwrite", False)`); an absent key
is `none`. -/
structure ConvOptions where
  quality : Option String
  overwrite : Option Bool

/-- The `try: ... except Exception: return False` pattern shared by every
converter's `convert`: an escaping exception becomes a `False` return. -/
def pyTry (e : Except PyError Bool) : Bool :=
  match e with
  | .ok b => b
  | .error _ => false

def ImageConverter.SUPPORTED_INPUT_FORMATS : List String :=
  ["png", "jpg", "jpeg", "gif", "webp", "tiff", "bmp", "svg"]

def ImageConverter.SUPPORTED_OUTPUT_FORMATS : List String :=
  ["png", "jpg", "jpeg", "gif", "webp", "tiff", "bmp", "svg"]

def VideoConverter.SUPPORTED_INPUT_FORMATS : List String :=
  ["mp4", "avi", "mkv", "mov", "webm", "flv", "wmv", "m4v", "3gp"]

def VideoConverter.SUPPORTED_OUTPUT_FORMATS : List String :=
  ["mp4", "avi", "mkv", "mov", "webm", "gif"]

def DocumentConverter.SUPPORTED_INPUT_FORMATS : List String :=
  ["pdf", "docx", "doc", "txt", "rtf", "odt", "xlsx", "xls", "csv", "pptx", "ppt"]

def DocumentConverter.SUPPORTED_OUTPUT_FORMATS : List String :=
  ["pdf", "docx", "txt", "rtf", "odt", "xlsx", "csv", "pptx", "html"]

def AudioConverter.SUPPORTED_INPUT_FORMATS : List String :=
  ["mp3", "wav", "flac", "aac", "ogg", "wma", "m4a"]

def AudioConverter.SUPPORTED_OUTPUT_FORMATS : List String :=
  ["mp3", "wav", "flac", "aac", "ogg"]

/-- Body of `ImageConverter.convert`'s try-block (image_converter.py lines
43-91); `delegate` stands for the Pillow `Image.open`/`convert`/`save` work
(lines 64-91), which may raise. -/
def ImageConverter.convert_body (fs : FileSystem)
    (delegate : String → String → ConvOptions → Except PyError Bool)
    (input_path output_format output_dir : String) (options : ConvOptions) :
    Except PyError Bool :=
  let input_extension := input_extension_of input_path
  if input_extension ∉ ImageConverter.SUPPORTED_INPUT_FORMATS then .ok false
  else
    let output_format := normalize_output_format output_format
    if output_format ∉ ImageConverter.SUPPORTED_OUTPUT_FORMATS then .ok false
    else
      let output_path := get_output_path input_path output_format output_dir
      if fs.pathExists output_path && !(options.overwrite.getD false) then .ok false
      else delegate input_path output_path options

/-- `ImageConverter.convert` (image_converter.py lines 27-95). -/
def ImageConverter.convert (fs : FileSystem)
    (delegate : String → String → ConvOptions → Except PyError Bool)
    (input_path output_format output_dir : String) (options : ConvOptions) : Bool :=
  pyTry (ImageConverter.convert_body fs delegate input_path output_format output_dir options)

/-- Body of `AudioConverter.convert`'s try-block (audio_converter.py lines
53-123); `delegate` stands for `AudioSegment.from_file` + `export` (lines
81-120), which may raise. -/
def AudioConverter.convert_body (fs : FileSystem)
    (delegate : String → String → ConvOptions → Except PyError Bool)
    (input_path output_format output_dir : String) (options : ConvOptions) :
    Except PyError Bool :=
  let input_extension := input_extension_of input_path
  if input_extension ∉ AudioConverter.SUPPORTED_INPUT_FORMATS then .ok false
  else
    let output_format := normalize_output_format output_format
    if output_format ∉ AudioConverter.SUPPORTED_OUTPUT_FORMATS then .ok false
    else
      let output_path := get_output_path input_path output_format output_dir
      if fs.pathExists output_path && !(options.overwrite.getD false) then .ok false
      else delegate input_path output_path options

/-- `AudioConverter.convert` (audio_converter.py lines 38-127). -/
def AudioConverter.convert (fs : FileSystem)
    (delegate : String → String → ConvOptions → Except PyError Bool)
    (input_path output_format output_dir : String) (options : ConvOptions) : Bool :=
  pyTry (AudioConverter.convert_body fs delegate input_path output_format output_dir options)

/-- Body of `VideoConverter.convert`'s try-block (video_converter.py lines
44-95); `delegate` stands for `VideoFileClip` + `write_gif`/`write_videofile`
(lines 72-92), which may raise. -/
def VideoConverter.convert_body (fs : FileSystem)
    (delegate : String → String → ConvOptions → Except PyError Bool)
    (input_path output_format output_dir : String) (options : ConvOptions) :
    Except PyError Bool :=
  let input_extension := input_extension_of input_path
  if input_extension ∉ VideoConverter.SUPPORTED_INPUT_FORMATS then .ok false
  else
    let output_format := normalize_output_format output_format
    if output_format ∉ VideoConverter.SUPPORTED_OUTPUT_FORMATS then .ok false
    else
      let output_path := get_output_path input_path output_format output_dir
      if fs.pathExists output_path && !(options.overwrite.getD false) then .ok false
      else delegate input_path output_path options

/-- `VideoConverter.convert` (video_converter.py lines 28-99). -/
def VideoConverter.convert (fs : FileSystem)
    (delegate : String → String → ConvOptions → Except PyError Bool)
    (input_path output_format output_dir : String) (options : ConvOptions) : Bool :=
  pyTry (VideoConverter.convert_body fs delegate input_path output_format output_dir options)

/-- The (input_extension, output_format) route dispatch of
`DocumentConverter.convert` (document_converter.py lines 72-101).
`routeDelegate route input output` stands for the library or subprocess work
of the matching `_convert_<route>` helper; each helper wraps its delegate in
its own try/except and returns a boolean, modelled by `pyTry`.  An unmapped
pair is a failure. -/
def DocumentConverter.route_convert
    (routeDelegate : String → String → String → Except PyError Bool)
    (input_extension output_format input_path output_path : String) :
    Except PyError Bool :=
  if input_extension = "pdf" ∧ output_format = "docx" then
    .ok (pyTry (routeDelegate "pdf_to_docx" input_path output_path))
  else if input_extension = "pdf" ∧ output_format = "txt" then
    .ok (pyTry (routeDelegate "pdf_to_txt" input_path output_path))
  else if (input_extension = "docx" ∨ input_extension = "doc") ∧ output_format = "pdf" then
    .ok (pyTry (routeDelegate "doc_to_pdf" input_path output_path))
  else if (input_extension = "docx" ∨ input_extension = "doc") ∧ output_format = "txt" then
    .ok (pyTry (routeDelegate "doc_to_txt" input_path output_path))
  else if input_extension = "txt" ∧ output_format = "pdf" then
    .ok (pyTry (routeDelegate "txt_to_pdf" input_path output_path))
  else if input_extension = "txt" ∧ output_format = "docx" then
    .ok (pyTry (routeDelegate "txt_to_docx" input_path output_path))
  else if (input_extension = "xlsx" ∨ input_extension = "xls") ∧ output_format = "csv" then
    .ok (pyTry (routeDelegate "excel_to_csv" input_path output_path))
  else if input_extension = "csv" ∧ output_format = "xlsx" then
    .ok (pyTry (routeDelegate "csv_to_excel" input_path output_path))
  else if (input_extension = "pptx" ∨ input_extension = "ppt") ∧ output_format = "pdf" then
    .ok (pyTry (routeDelegate "ppt_to_pdf" input_path output_path))
  else .ok false

/-- Body of `DocumentConverter.convert`'s try-block (document_converter.py
lines 50-101): validation, destination-conflict check, then the route
dispatch. -/
def DocumentConverter.convert_body (fs : FileSystem)
    (routeDelegate : String → String → String → Except PyError Bool)
    (input_path output_format output_dir : String) (options : ConvOptions) :
    Except PyError Bool :=
  let input_extension := input_extension_of input_path
  if input_extension ∉ DocumentConverter.SUPPORTED_INPUT_FORMATS then .ok false
  else
    let output_format := normalize_output_format output_format
    if output_format ∉ DocumentConverter.SUPPORTED_OUTPUT_FORMATS then .ok false
    else
      let output_path := get_output_path input_path output_format output_dir
      if fs.pathExists output_path && !(options.overwrite.getD false) then .ok false
      else DocumentConverter.route_convert routeDelegate input_extension output_format
        input_path output_path

/-- `DocumentConverter.convert` (document_converter.py lines 36-105). -/
def DocumentConverter.convert (fs : FileSystem)
    (routeDelegate : String → String → String → Except PyError Bool)
    (input_path output_format output_dir : String) (options : ConvOptions) : Bool :=
  pyTry (DocumentConverter.convert_body fs routeDelegate input_path output_format output_dir options)

/-- The four peer converters of the registry. -/
inductive ConverterKind
  | image
  | video
  | document
  | audio
deriving DecidableEq

/-- Each converter's `SUPPORTED_OUTPUT_FORMATS`, by kind. -/
def supportedOutputs : ConverterKind → List String
  | .image => ImageConverter.SUPPORTED_OUTPUT_FORMATS
  | .video => VideoConverter.SUPPORTED_OUTPUT_FORMATS
  | .document => DocumentConverter.SUPPORTED_OUTPUT_FORMATS
  | .audio => AudioConverter.SUPPORTED_OUTPUT_FORMATS

/-- `FileConverterApp.get_converter_for_format` (main.py lines 333-351). -/
def get_converter_for_format (output_format : String) : Option ConverterKind :=
  if output_format ∈ (["png", "jpg", "jpeg", "gif", "webp", "tiff", "bmp", "svg"] : List String) then
    some .image
  else if output_format ∈ (["mp4", "avi", "mkv", "mov", "webm"] : List String) then
    some .video
  else if output_format ∈
      (["pdf", "docx", "txt", "rtf", "odt", "xlsx", "csv", "pptx", "html"] : List String) then
    some .document
  else if output_format ∈ (["mp3", "wav", "flac", "aac", "ogg"] : List String) then
    some .audio
  else none

/-- Union of the four converters' registered output formats. -/
def allRegisteredFormats : List String :=
  ImageConverter.SUPPORTED_OUTPUT_FORMATS ++ VideoConverter.SUPPORTED_OUTPUT_FORMATS ++
    DocumentConverter.SUPPORTED_OUTPUT_FORMATS ++ AudioConverter.SUPPORTED_OUTPUT_FORMATS

instance instDecidableExistsConverterKind (p : ConverterKind → Prop) [DecidablePred p] :
    Decidable (∃ k, p k) :=
  if h1 : p .image then isTrue ⟨_, h1⟩
  else if h2 : p .video then isTrue ⟨_, h2⟩
  else if h3 : p .document then isTrue ⟨_, h3⟩
  else if h4 : p .audio then isTrue ⟨_, h4⟩
  else isFalse (by rintro ⟨k, hk⟩; cases k <;> contradiction)

instance instDecidableForallConverterKind (p : ConverterKind → Prop) [DecidablePred p] :
    Decidable (∀ k, p k) :=
  if h : p .image ∧ p .video ∧ p .document ∧ p .audio then
    isTrue (by rintro (_ | _ | _ | _) <;> simp_all)
  else isFalse (fun hall => h ⟨hall _, hall _, hall _, hall _⟩)

/-- Fuel-bounded floor of the base-2 logarithm: `log2floor fuel n` halves `n`
until it drops below 2, adding 1 per step; `fuel ≥ n` is always enough. -/
def log2floor : Nat → Nat → Nat
  | 0, _ => 0
  | fuel + 1, n => if 2 ≤ n then log2floor fuel (n / 2) + 1 else 0

/-- floor(log2 n) for n ≥ 1 (and 0 at 0). -/
def nlog2 (n : Nat) : Nat :=
  log2floor n n

/-- Round-to-nearest, ties-to-even, of the rational a/b (for b > 0) to an
integer, via the exact quotient and remainder: the rounding IEEE-754 applies
to an exact significand quotient. -/
def rneDiv (a b : Nat) : Nat :=
  let q := a / b
  let r := a % b
  if 2 * r < b then q
  else if b < 2 * r then q + 1
  else if q % 2 = 0 then q else q + 1

/-- floor(log2 (a/b)) for a, b ≥ 1, computed with integer arithmetic:
the binary exponent of the positive rational a/b. -/
def fexp (a b : Nat) : ℤ :=
  let K := nlog2 b + 1
  (nlog2 (a * 2 ^ K / b) : ℤ) - K

/-- One binary64 rounding step: round the positive rational a/b to 53
significant bits, returned as (m, e) with value m·2^(e−52) and
2^52 ≤ m ≤ 2^53.  The exponent range is unbounded (no overflow or subnormal
clamping), which agrees with IEEE-754 binary64 at every magnitude the
worker's percent computation can produce. -/
def roundPair (a b : Nat) : Nat × ℤ :=
  let e := fexp a b
  if 52 ≤ e then (rneDiv a (b * 2 ^ (e - 52).toNat), e)
  else (rneDiv (a * 2 ^ (52 - e).toNat) b, e)

/-- The double x·100 (x = m·2^(e−52) from `roundPair`), expressed as an exact
fraction numerator/denominator pair, ready for the next rounding step. -/
def pyTimes100 (p : Nat × ℤ) : Nat × Nat :=
  if 52 ≤ p.2 then (p.1 * 100 * 2 ^ (p.2 - 52).toNat, 1)
  else (p.1 * 100, 2 ^ (52 - p.2).toNat)

/-- Python's int() on a non-negative double m·2^(e−52): truncation toward
zero, i.e. the floor. -/
def pyTrunc (p : Nat × ℤ) : Nat :=
  if 52 ≤ p.2 then p.1 * 2 ^ (p.2 - 52).toNat
  else p.1 / 2 ^ (52 - p.2).toNat

/-- `int((i / total) * 100)` exactly as Python evaluates it (main.py line 42):
binary64 division i/total (CPython's int true division is correctly
rounded), binary64 multiplication by 100, truncation toward zero.  i = 0
gives exactly 0; total = 0 is unreachable (the worker's loop is empty then),
where this model returns 0 instead of Python's ZeroDivisionError. -/
def pyPercent (i total : Nat) : Nat :=
  if i = 0 then 0
  else pyTrunc (roundPair (pyTimes100 (roundPair i total)).1 (pyTimes100 (roundPair i total)).2)

/-- Round-to-nearest, ties-to-even, of a rational to an integer: the
specification `rneDiv` is proved against, used for the order reasoning. -/
def rneQ (x : ℚ) : ℤ :=
  if x - ⌊x⌋ < 1 / 2 then ⌊x⌋
  else if 1 / 2 < x - ⌊x⌋ then ⌊x⌋ + 1
  else if ⌊x⌋ % 2 = 0 then ⌊x⌋ else ⌊x⌋ + 1

/-- The rational value denoted by `roundPair a b`: the binary64 result of
rounding a/b, used for the order reasoning. -/
def rpVal (a b : Nat) : ℚ :=
  ((roundPair a b).1 : ℚ) * 2 ^ ((roundPair a b).2 - 52)

/-- The per-file loop of `ConversionWorker.run` (main.py lines 39-56),
carrying the running index `i`: each iteration first emits the progress pair
`(int((i / total_files) * 100), "Converting <basename>...")` — the percentage
computed by `pyPercent`, bit-faithful to Python's binary64 arithmetic — and
then records the boolean returned by `converter.convert` in the running
success count.
The `except` arm of the loop is unreachable here because the converters are
modelled as boolean-returning (their own try/except already catches, claim
C5). -/
def ConversionWorker.runFrom (converter : String → Bool) (total_files : Nat) :
    Nat → List String → List (Nat × String) × Nat
  | _, [] => ([], 0)
  | i, file_path :: rest =>
    let em := (pyPercent i total_files, "Converting " ++ basename file_path ++ "...")
    let r := ConversionWorker.runFrom converter total_files (i + 1) rest
    (em :: r.1, (if converter file_path then 1 else 0) + r.2)

/-- `ConversionWorker.run` (main.py lines 34-60): returns the ordered list of
`progress_update` emissions and the final `conversion_complete` pair
`(success_count == total_files, "Converted N of M files successfully")`. -/
def ConversionWorker.run (converter : String → Bool) (input_files : List String) :
    List (Nat × String) × (Bool × String) :=
  let total_files := input_files.length
  let r := ConversionWorker.runFrom converter total_files 0 input_files
  (r.1, (r.2 == total_files,
    "Converted " ++ toString r.2 ++ " of " ++ toString total_files ++ " files successfully"))

/-- A filesystem on which every path exists and is readable. -/
def fsAllExist : FileSystem :=
  { pathExists := fun _ => true, readable := fun _ => true, imghdrSig := fun _ => none }

/-- A filesystem on which no path exists. -/
def fsNoneExist : FileSystem :=
  { pathExists := fun _ => false, readable := fun _ => true, imghdrSig := fun _ => none }

/-- A filesystem on which every path exists but none can be opened for
reading (an unreadable file or a directory). -/
def fsUnreadable : FileSystem :=
  { pathExists := fun _ => true, readable := fun _ => false, imghdrSig := fun _ => none }

/-- A delegate that always raises. -/
def errDelegate : String → String → ConvOptions → Except PyError Bool :=
  fun _ _ _ => .error .oserror

/-- A document-route delegate that always raises. -/
def errRouteDelegate : String → String → String → Except PyError Bool :=
  fun _ _ _ => .error .oserror

/-- A delegate that always succeeds. -/
def okDelegate : String → String → ConvOptions → Except PyError Bool :=
  fun _ _ _ => .ok true

/-- A document-route delegate that always succeeds. -/
def okRouteDelegate : String → String → String → Except PyError Bool :=
  fun _ _ _ => .ok true

/-- An options dictionary with no keys set. -/
def opts0 : ConvOptions := ⟨none, none⟩

/-- A concrete 50-file batch, used to exhibit the binary64 percentage. -/
def pyFiles50 : List String :=
  (List.range 50).map (fun n => toString n)

/-- Closed form of the worker loop: the emissions are exactly one progress
pair per file, in order, and the final count is the number of files whose
conversion returned true. -/
theorem runFrom_eq (converter : String → Bool) (total : Nat) (files : List String) :
    ∀ i, ConversionWorker.runFrom converter total i files =
      ((files.enumFrom i).map
        (fun p => (pyPercent p.1 total, "Converting " ++ basename p.2 ++ "...")),
       (files.filter converter).length) := by
  induction files with
  | nil => intro i; rfl
  | cons f rest ih =>
    intro i
    simp only [ConversionWorker.runFrom, ih (i + 1), List.enumFrom_cons, List.map_cons,
      List.filter_cons, Prod.mk.injEq]
    refine ⟨trivial, ?_⟩
    by_cases h : converter f <;> simp [h, Nat.add_comm]

/-- With enough fuel, `log2floor` brackets n between consecutive powers of 2. -/
theorem log2floor_spec :
    ∀ (fuel n : Nat), 1 ≤ n → n ≤ fuel →
      2 ^ log2floor fuel n ≤ n ∧ n < 2 ^ (log2floor fuel n + 1) := by
  intro fuel
  induction fuel with
  | zero => intro n h1 h2; exact absurd h2 (by omega)
  | succ f ih =>
    intro n h1 h2
    simp only [log2floor]
    split
    · next hn =>
      have ih2 := ih (n / 2) (by omega) (by omega)
      have e1 : 2 ^ (log2floor f (n / 2) + 1) = 2 ^ log2floor f (n / 2) * 2 :=
        pow_succ 2 _
      have e2 : 2 ^ (log2floor f (n / 2) + 1 + 1) = 2 ^ (log2floor f (n / 2) + 1) * 2 :=
        pow_succ 2 _
      omega
    · next hn =>
      simp only [pow_zero, zero_add, pow_one]
      omega

/-- The binary bracketing of n ≥ 1 by `nlog2`. -/
theorem nlog2_spec (n : Nat) (h : 1 ≤ n) :
    2 ^ nlog2 n ≤ n ∧ n < 2 ^ (nlog2 n + 1) :=
  log2floor_spec n n h (le_refl n)

theorem rneQ_ge_floor (x : ℚ) : ⌊x⌋ ≤ rneQ x := by
  unfold rneQ; split_ifs <;> omega

theorem rneQ_le_floor_add_one (x : ℚ) : rneQ x ≤ ⌊x⌋ + 1 := by
  unfold rneQ; split_ifs <;> omega

/-- Round-to-nearest-even is monotone. -/
theorem rneQ_mono {x y : ℚ} (h : x ≤ y) : rneQ x ≤ rneQ y := by
  rcases lt_or_ge ⌊x⌋ ⌊y⌋ with hf | hf
  · have h1 := rneQ_le_floor_add_one x
    have h2 := rneQ_ge_floor y
    omega
  · have hfe : ⌊x⌋ = ⌊y⌋ := le_antisymm (Int.floor_le_floor h) hf
    unfold rneQ
    rw [hfe]
    split_ifs <;> first | omega | linarith

/-- The integer floor of a natural quotient, seen in ℚ. -/
theorem floor_natCast_div (a b : Nat) : ⌊(a : ℚ) / b⌋ = ((a / b : Nat) : ℤ) := by
  have h := Rat.floor_intCast_div_natCast (a : ℤ) b
  push_cast at h
  rw [h]
  exact (Int.ofNat_div a b).symm

/-- The fractional part of a natural quotient, seen in ℚ. -/
theorem sub_floor_natCast_div (a b : Nat) (hb : 0 < b) :
    (a : ℚ) / b - ((a / b : Nat) : ℚ) = ((a % b : Nat) : ℚ) / b := by
  have hb' : (b : ℚ) ≠ 0 := Nat.cast_ne_zero.mpr (by omega)
  have key : (b : ℚ) * ((a / b : Nat) : ℚ) + ((a % b : Nat) : ℚ) = (a : ℚ) := by
    exact_mod_cast Nat.div_add_mod a b
  field_simp
  linarith

theorem half_lt_iff (r b : Nat) (hb : 0 < b) :
    ((r : ℚ) / b < 1 / 2) ↔ 2 * r < b := by
  rw [div_lt_div_iff (by exact_mod_cast hb) (by norm_num : (0:ℚ) < 2)]
  norm_cast
  omega

theorem lt_half_iff (r b : Nat) (hb : 0 < b) :
    (1 / 2 < (r : ℚ) / b) ↔ b < 2 * r := by
  rw [div_lt_div_iff (by norm_num : (0:ℚ) < 2) (by exact_mod_cast hb)]
  norm_cast
  omega

/-- `rneDiv` computes exactly round-to-nearest-even of the rational a/b. -/
theorem rneDiv_eq_rneQ (a b : Nat) (hb : 0 < b) :
    (rneDiv a b : ℤ) = rneQ ((a : ℚ) / b) := by
  have hfl := floor_natCast_div a b
  have hfr : (a : ℚ) / b - (⌊(a : ℚ) / b⌋ : ℚ) = ((a % b : Nat) : ℚ) / b := by
    rw [hfl, Int.cast_natCast]
    exact sub_floor_natCast_div a b hb
  simp only [rneDiv, rneQ]
  rw [hfr, hfl]
  simp only [half_lt_iff (a % b) b hb, lt_half_iff (a % b) b hb]
  have hpar : (((a / b : Nat) : ℤ) % 2 = 0) ↔ ((a / b) % 2 = 0) := by omega
  simp only [hpar]
  split_ifs <;> push_cast <;> ring

/-- The binary exponent function brackets a/b between consecutive powers
of two. -/
theorem fexp_spec (a b : Nat) (ha : 0 < a) (hb : 0 < b) :
    (2 : ℚ) ^ fexp a b ≤ (a : ℚ) / b ∧ (a : ℚ) / b < 2 ^ (fexp a b + 1) := by
  have hb' : (0 : ℚ) < b := by exact_mod_cast hb
  have hbs := nlog2_spec b hb
  have hm1 : 1 ≤ a * 2 ^ (nlog2 b + 1) / b := by
    rw [Nat.le_div_iff_mul_le hb, one_mul]
    calc b ≤ 2 ^ (nlog2 b + 1) := le_of_lt hbs.2
    _ ≤ a * 2 ^ (nlog2 b + 1) := Nat.le_mul_of_pos_left _ ha
  have hms := nlog2_spec (a * 2 ^ (nlog2 b + 1) / b) hm1
  have hfe : fexp a b =
      ((nlog2 (a * 2 ^ (nlog2 b + 1) / b) : ℕ) : ℤ) - ((nlog2 b + 1 : ℕ) : ℤ) := rfl
  have low : (a * 2 ^ (nlog2 b + 1) / b) * b ≤ a * 2 ^ (nlog2 b + 1) :=
    Nat.div_mul_le_self _ _
  have high : a * 2 ^ (nlog2 b + 1) < (a * 2 ^ (nlog2 b + 1) / b + 1) * b := by
    have hr := (Nat.div_add_mod (a * 2 ^ (nlog2 b + 1)) b).symm
    have hrl : a * 2 ^ (nlog2 b + 1) % b < b := Nat.mod_lt _ hb
    calc a * 2 ^ (nlog2 b + 1)
        = b * (a * 2 ^ (nlog2 b + 1) / b) + a * 2 ^ (nlog2 b + 1) % b := hr
    _ < b * (a * 2 ^ (nlog2 b + 1) / b) + b :=
        Nat.add_lt_add_left hrl _
    _ = (a * 2 ^ (nlog2 b + 1) / b + 1) * b := by ring
  constructor
  · rw [hfe, zpow_sub₀ (two_ne_zero), zpow_natCast, zpow_natCast,
      div_le_div_iff (by positivity) hb']
    have l1 : (2 : ℚ) ^ nlog2 (a * 2 ^ (nlog2 b + 1) / b) ≤
        ((a * 2 ^ (nlog2 b + 1) / b : Nat) : ℚ) := by exact_mod_cast hms.1
    have l2 : ((a * 2 ^ (nlog2 b + 1) / b : Nat) : ℚ) * b ≤ (a : ℚ) * 2 ^ (nlog2 b + 1) := by
      exact_mod_cast low
    nlinarith [l1, l2, hb']
  · rw [hfe]
    have he2 : ((nlog2 (a * 2 ^ (nlog2 b + 1) / b) : ℕ) : ℤ) - ((nlog2 b + 1 : ℕ) : ℤ) + 1 =
        ((nlog2 (a * 2 ^ (nlog2 b + 1) / b) + 1 : ℕ) : ℤ) - ((nlog2 b + 1 : ℕ) : ℤ) := by
      push_cast
      ring
    rw [he2, zpow_sub₀ (two_ne_zero), zpow_natCast, zpow_natCast,
      div_lt_div_iff hb' (by positivity)]
    have l1 : ((a * 2 ^ (nlog2 b + 1) / b : Nat) : ℚ) + 1 ≤
        (2 : ℚ) ^ (nlog2 (a * 2 ^ (nlog2 b + 1) / b) + 1) := by
      exact_mod_cast hms.2
    have l2 : (a : ℚ) * 2 ^ (nlog2 b + 1) <
        (((a * 2 ^ (nlog2 b + 1) / b : Nat) : ℚ) + 1) * b := by
      exact_mod_cast high
    nlinarith [l1, l2, hb']

theorem roundPair_snd (a b : Nat) : (roundPair a b).2 = fexp a b := by
  simp only [roundPair]
  split <;> rfl

/-- The significand produced by `roundPair` is round-to-nearest-even of the
input scaled into [2^52, 2^53). -/
theorem roundPair_fst_eq (a b : Nat) (hb : 0 < b) :
    ((roundPair a b).1 : ℤ) = rneQ ((a : ℚ) / b * 2 ^ ((52 : ℤ) - fexp a b)) := by
  have hb' : (0 : ℚ) < b := by exact_mod_cast hb
  simp only [roundPair]
  split
  · next h52 =>
    have hbp : 0 < b * 2 ^ (fexp a b - 52).toNat := by
      have := Nat.two_pow_pos (fexp a b - 52).toNat
      exact Nat.mul_pos hb this
    rw [rneDiv_eq_rneQ a _ hbp]
    congr 1
    have hk : (((fexp a b - 52).toNat : ℕ) : ℤ) = fexp a b - 52 :=
      Int.toNat_of_nonneg (by omega)
    simp only [Nat.cast_mul, Nat.cast_pow, Nat.cast_ofNat]
    rw [← zpow_natCast (2 : ℚ) (fexp a b - 52).toNat, hk,
      show ((52 : ℤ) - fexp a b) = -(fexp a b - 52) by ring, zpow_neg,
      ← div_div, div_eq_mul_inv ((a : ℚ) / b)]
  · next h52 =>
    rw [rneDiv_eq_rneQ _ b hb]
    congr 1
    have hk : ((((52 : ℤ) - fexp a b).toNat : ℕ) : ℤ) = 52 - fexp a b :=
      Int.toNat_of_nonneg (by omega)
    simp only [Nat.cast_mul, Nat.cast_pow, Nat.cast_ofNat]
    rw [← zpow_natCast (2 : ℚ) ((52 : ℤ) - fexp a b).toNat, hk]
    ring

/-- The scaled input to the significand rounding lies in [2^52, 2^53). -/
theorem scaled_bounds (a b : Nat) (ha : 0 < a) (hb : 0 < b) :
    (2 : ℚ) ^ (52 : ℤ) ≤ (a : ℚ) / b * 2 ^ ((52 : ℤ) - fexp a b) ∧
    (a : ℚ) / b * 2 ^ ((52 : ℤ) - fexp a b) < 2 ^ (53 : ℤ) := by
  have hs := fexp_spec a b ha hb
  have hp : (0 : ℚ) < 2 ^ ((52 : ℤ) - fexp a b) := by positivity
  constructor
  · have h1 := mul_le_mul_of_nonneg_right hs.1 (le_of_lt hp)
    calc (2 : ℚ) ^ (52 : ℤ)
        = 2 ^ fexp a b * 2 ^ ((52 : ℤ) - fexp a b) := by
          rw [← zpow_add₀ (two_ne_zero : (2:ℚ) ≠ 0)]
          congr 1
          ring
    _ ≤ (a : ℚ) / b * 2 ^ ((52 : ℤ) - fexp a b) := h1
  · have h1 := mul_lt_mul_of_pos_right hs.2 hp
    calc (a : ℚ) / b * 2 ^ ((52 : ℤ) - fexp a b)
        < 2 ^ (fexp a b + 1) * 2 ^ ((52 : ℤ) - fexp a b) := h1
    _ = 2 ^ (53 : ℤ) := by
          rw [← zpow_add₀ (two_ne_zero : (2:ℚ) ≠ 0)]
          congr 1
          ring

/-- The significand is bracketed by 2^52 and 2^53. -/
theorem roundPair_fst_bounds (a b : Nat) (ha : 0 < a) (hb : 0 < b) :
    (2 ^ 52 : ℤ) ≤ ((roundPair a b).1 : ℤ) ∧ ((roundPair a b).1 : ℤ) ≤ 2 ^ 53 := by
  have hsb := scaled_bounds a b ha hb
  rw [roundPair_fst_eq a b hb]
  constructor
  · have hfl : (2 ^ 52 : ℤ) ≤ ⌊(a : ℚ) / b * 2 ^ ((52 : ℤ) - fexp a b)⌋ := by
      rw [Int.le_floor]
      calc ((2 ^ 52 : ℤ) : ℚ) = 2 ^ (52 : ℤ) := by norm_num
      _ ≤ _ := hsb.1
    have := rneQ_ge_floor ((a : ℚ) / b * 2 ^ ((52 : ℤ) - fexp a b))
    omega
  · have hfl : ⌊(a : ℚ) / b * 2 ^ ((52 : ℤ) - fexp a b)⌋ < 2 ^ 53 := by
      rw [Int.floor_lt]
      calc (a : ℚ) / b * 2 ^ ((52 : ℤ) - fexp a b) < 2 ^ (53 : ℤ) := hsb.2
      _ = ((2 ^ 53 : ℤ) : ℚ) := by norm_num
    have := rneQ_le_floor_add_one ((a : ℚ) / b * 2 ^ ((52 : ℤ) - fexp a b))
    omega

theorem roundPair_fst_pos (a b : Nat) (ha : 0 < a) (hb : 0 < b) :
    0 < (roundPair a b).1 := by
  have h := (roundPair_fst_bounds a b ha hb).1
  omega

/-- Lower bound on the rounded value. -/
theorem rpVal_lb (a b : Nat) (ha : 0 < a) (hb : 0 < b) :
    (2 : ℚ) ^ fexp a b ≤ rpVal a b := by
  have hm := (roundPair_fst_bounds a b ha hb).1
  unfold rpVal
  rw [roundPair_snd]
  have hm' : ((2 : ℚ) ^ (52 : ℤ)) ≤ ((roundPair a b).1 : ℚ) := by
    calc ((2 : ℚ) ^ (52 : ℤ)) = ((2 ^ 52 : ℤ) : ℚ) := by norm_num
    _ ≤ _ := by exact_mod_cast hm
  calc (2 : ℚ) ^ fexp a b
      = 2 ^ (52 : ℤ) * 2 ^ (fexp a b - 52) := by
        rw [← zpow_add₀ (two_ne_zero : (2:ℚ) ≠ 0)]
        congr 1
        ring
  _ ≤ ((roundPair a b).1 : ℚ) * 2 ^ (fexp a b - 52) :=
      mul_le_mul_of_nonneg_right hm' (by positivity)

/-- Upper bound on the rounded value. -/
theorem rpVal_ub (a b : Nat) (ha : 0 < a) (hb : 0 < b) :
    rpVal a b ≤ 2 ^ (fexp a b + 1) := by
  have hm := (roundPair_fst_bounds a b ha hb).2
  unfold rpVal
  rw [roundPair_snd]
  have hm' : ((roundPair a b).1 : ℚ) ≤ (2 : ℚ) ^ (53 : ℤ) := by
    calc ((roundPair a b).1 : ℚ) ≤ ((2 ^ 53 : ℤ) : ℚ) := by exact_mod_cast hm
    _ = (2 : ℚ) ^ (53 : ℤ) := by norm_num
  calc ((roundPair a b).1 : ℚ) * 2 ^ (fexp a b - 52)
      ≤ 2 ^ (53 : ℤ) * 2 ^ (fexp a b - 52) :=
        mul_le_mul_of_nonneg_right hm' (by positivity)
  _ = 2 ^ (fexp a b + 1) := by
        rw [← zpow_add₀ (two_ne_zero : (2:ℚ) ≠ 0)]
        congr 1
        ring

/-- Binary64 rounding is monotone on positive rationals. -/
theorem rpVal_mono (a b c d : Nat) (ha : 0 < a) (hb : 0 < b) (hc : 0 < c) (hd : 0 < d)
    (h : (a : ℚ) / b ≤ (c : ℚ) / d) : rpVal a b ≤ rpVal c d := by
  have he : fexp a b ≤ fexp c d := by
    have h1 := (fexp_spec a b ha hb).1
    have h2 := (fexp_spec c d hc hd).2
    have hlt : (2 : ℚ) ^ fexp a b < 2 ^ (fexp c d + 1) := lt_of_le_of_lt (h1.trans h) h2
    have := (zpow_lt_zpow_iff_right₀ (by norm_num : (1:ℚ) < 2)).mp hlt
    omega
  rcases eq_or_lt_of_le he with heq | hlt
  · have hsc : (a : ℚ) / b * 2 ^ ((52 : ℤ) - fexp a b) ≤
        (c : ℚ) / d * 2 ^ ((52 : ℤ) - fexp c d) := by
      rw [← heq]
      exact mul_le_mul_of_nonneg_right h (by positivity)
    have hm := rneQ_mono hsc
    rw [← roundPair_fst_eq a b hb, ← roundPair_fst_eq c d hd] at hm
    unfold rpVal
    rw [roundPair_snd, roundPair_snd, ← heq]
    exact mul_le_mul_of_nonneg_right (by exact_mod_cast hm) (by positivity)
  · calc rpVal a b ≤ 2 ^ (fexp a b + 1) := rpVal_ub a b ha hb
    _ ≤ 2 ^ fexp c d := zpow_le_zpow_right₀ (by norm_num) (by omega)
    _ ≤ rpVal c d := rpVal_lb c d hc hd

/-- The fraction built by `pyTimes100` denotes exactly the rounded value
times 100. -/
theorem pyTimes100_val (p : Nat × ℤ) :
    ((pyTimes100 p).1 : ℚ) / ((pyTimes100 p).2 : ℚ) =
      (p.1 : ℚ) * 2 ^ (p.2 - 52) * 100 := by
  unfold pyTimes100
  split
  · next h =>
    have hk : (((p.2 - 52).toNat : ℕ) : ℤ) = p.2 - 52 := Int.toNat_of_nonneg (by omega)
    simp only [Nat.cast_mul, Nat.cast_pow, Nat.cast_ofNat, Nat.cast_one, div_one]
    rw [← zpow_natCast (2 : ℚ) (p.2 - 52).toNat, hk]
    ring
  · next h =>
    have hk : ((((52 : ℤ) - p.2).toNat : ℕ) : ℤ) = 52 - p.2 := Int.toNat_of_nonneg (by omega)
    simp only [Nat.cast_mul, Nat.cast_pow, Nat.cast_ofNat]
    rw [← zpow_natCast (2 : ℚ) ((52 : ℤ) - p.2).toNat, hk,
      show (p.2 - 52 : ℤ) = -(52 - p.2) by ring, zpow_neg, div_eq_mul_inv]
    ring

theorem pyTimes100_fst_pos (p : Nat × ℤ) (hp : 0 < p.1) : 0 < (pyTimes100 p).1 := by
  unfold pyTimes100
  split
  · exact Nat.mul_pos (Nat.mul_pos hp (by norm_num)) (Nat.two_pow_pos _)
  · exact Nat.mul_pos hp (by norm_num)

theorem pyTimes100_snd_pos (p : Nat × ℤ) : 0 < (pyTimes100 p).2 := by
  unfold pyTimes100
  split
  · exact Nat.one_pos
  · exact Nat.two_pow_pos _

/-- `pyTrunc` is the floor of the value denoted by (m, e). -/
theorem pyTrunc_eq (p : Nat × ℤ) :
    (pyTrunc p : ℤ) = ⌊(p.1 : ℚ) * 2 ^ (p.2 - 52)⌋ := by
  unfold pyTrunc
  split
  · next h =>
    have hk : (((p.2 - 52).toNat : ℕ) : ℤ) = p.2 - 52 := Int.toNat_of_nonneg (by omega)
    have hv : ((p.1 : ℚ) * 2 ^ (p.2 - 52)) = ((p.1 * 2 ^ (p.2 - 52).toNat : ℕ) : ℚ) := by
      simp only [Nat.cast_mul, Nat.cast_pow, Nat.cast_ofNat]
      rw [← zpow_natCast (2 : ℚ) (p.2 - 52).toNat, hk]
    rw [hv, Int.floor_natCast]
  · next h =>
    have hk : ((((52 : ℤ) - p.2).toNat : ℕ) : ℤ) = 52 - p.2 := Int.toNat_of_nonneg (by omega)
    have hv : ((p.1 : ℚ) * 2 ^ (p.2 - 52)) =
        (p.1 : ℚ) / ((2 ^ ((52 : ℤ) - p.2).toNat : ℕ) : ℚ) := by
      simp only [Nat.cast_pow, Nat.cast_ofNat]
      rw [← zpow_natCast (2 : ℚ) ((52 : ℤ) - p.2).toNat, hk,
        show (p.2 - 52 : ℤ) = -(52 - p.2) by ring, zpow_neg, div_eq_mul_inv]
    rw [hv, floor_natCast_div]

/-- The percentage the worker emits is monotone in the file index: binary64
division by a fixed total, multiplication by 100 and truncation are each
monotone. -/
theorem pyPercent_mono (i j N : Nat) (hN : 0 < N) (hij : i ≤ j) :
    pyPercent i N ≤ pyPercent j N := by
  rcases Nat.eq_zero_or_pos i with hi | hi
  · subst hi
    simp [pyPercent]
  · have hj : 0 < j := lt_of_lt_of_le hi hij
    have hi0 : ¬ (i = 0) := by omega
    have hj0 : ¬ (j = 0) := by omega
    simp only [pyPercent, if_neg hi0, if_neg hj0]
    have hij' : (i : ℚ) ≤ j := by exact_mod_cast hij
    have hdiv : (i : ℚ) / N ≤ (j : ℚ) / N := by gcongr
    have hv1 : rpVal i N ≤ rpVal j N := rpVal_mono i N j N hi hN hj hN hdiv
    have hp1i : 0 < (roundPair i N).1 := roundPair_fst_pos i N hi hN
    have hp1j : 0 < (roundPair j N).1 := roundPair_fst_pos j N hj hN
    have hfrac : ((pyTimes100 (roundPair i N)).1 : ℚ) / ((pyTimes100 (roundPair i N)).2 : ℚ) ≤
        ((pyTimes100 (roundPair j N)).1 : ℚ) / ((pyTimes100 (roundPair j N)).2 : ℚ) := by
      rw [pyTimes100_val, pyTimes100_val]
      have hm := mul_le_mul_of_nonneg_right hv1 (by norm_num : (0:ℚ) ≤ 100)
      exact hm
    have hv2 : rpVal (pyTimes100 (roundPair i N)).1 (pyTimes100 (roundPair i N)).2 ≤
        rpVal (pyTimes100 (roundPair j N)).1 (pyTimes100 (roundPair j N)).2 :=
      rpVal_mono _ _ _ _ (pyTimes100_fst_pos _ hp1i) (pyTimes100_snd_pos _)
        (pyTimes100_fst_pos _ hp1j) (pyTimes100_snd_pos _) hfrac
    have hfin :
        (pyTrunc (roundPair (pyTimes100 (roundPair i N)).1 (pyTimes100 (roundPair i N)).2) : ℤ) ≤
        (pyTrunc (roundPair (pyTimes100 (roundPair j N)).1 (pyTimes100 (roundPair j N)).2) : ℤ) := by
      rw [pyTrunc_eq, pyTrunc_eq]
      exact Int.floor_le_floor hv2
    exact_mod_cast hfin

/-- Claim C1: for every ordered batch run by the worker with K of N convert
calls returning true, the reported count is exactly K (the length of the
filtered list), the final flag is true exactly when K = N, the final message
is exactly "Converted K of N files successfully", and every file is attempted
(one progress emission and one recorded convert outcome per file — no
short-circuiting on a false result). -/
theorem claim_C1 (converter : String → Bool) (files : List String) :
    (ConversionWorker.runFrom converter files.length 0 files).2 =
      (files.filter converter).length ∧
    (ConversionWorker.run converter files).1.length = files.length ∧
    ((ConversionWorker.run converter files).2.1 = true ↔
      (files.filter converter).length = files.length) ∧
    (ConversionWorker.run converter files).2.2 =
      "Converted " ++ toString (files.filter converter).length ++ " of " ++
        toString files.length ++ " files successfully" := by
  have h := runFrom_eq converter files.length files 0
  refine ⟨by rw [h], ?_, ?_, ?_⟩
  · simp only [ConversionWorker.run]
    rw [h]
    simp
  · simp only [ConversionWorker.run]
    rw [h]
    simp
  · simp only [ConversionWorker.run]
    rw [h]

/-- Claim C7 (amended): on a non-empty batch, the worker emits exactly one
progress notification per file, in file order, before that file's conversion
attempt (the loop emits first, then converts), with percentage
int((index / total) * 100) evaluated in IEEE-754 binary64 arithmetic
(`pyPercent`), and the sequence of emitted percentages is monotonically
non-decreasing. -/
theorem claim_C7 (converter : String → Bool) (files : List String) (hne : files ≠ []) :
    (ConversionWorker.run converter files).1 =
      files.enum.map
        (fun p => (pyPercent p.1 files.length, "Converting " ++ basename p.2 ++ "...")) ∧
    List.Pairwise (fun a b => a ≤ b)
      ((ConversionWorker.run converter files).1.map Prod.fst) := by
  have he := runFrom_eq converter files.length files 0
  have h1 : (ConversionWorker.run converter files).1 =
      files.enum.map
        (fun p => (pyPercent p.1 files.length, "Converting " ++ basename p.2 ++ "...")) := by
    simp only [ConversionWorker.run]
    rw [he]
    rfl
  refine ⟨h1, ?_⟩
  rw [h1, List.map_map]
  have hp : files.enum.Pairwise (fun a b => a.1 < b.1) := by
    have hr := List.pairwise_lt_range files.length
    rw [← List.enum_map_fst files] at hr
    exact List.pairwise_map.mp hr
  have hN : 0 < files.length := List.length_pos.mpr hne
  exact List.pairwise_map.mpr
    (hp.imp fun hab => pyPercent_mono _ _ files.length hN (Nat.le_of_lt hab))

/-- Witness for claim C7 at the concrete batch ["a.png", "b.txt"]. -/
theorem claim_C7_witness :
    (["a.png", "b.txt"] : List String) ≠ [] ∧
    ((ConversionWorker.run (fun _ => true) ["a.png", "b.txt"]).1 =
      (["a.png", "b.txt"] : List String).enum.map
        (fun p => (pyPercent p.1 (["a.png", "b.txt"] : List String).length,
          "Converting " ++ basename p.2 ++ "...")) ∧
    List.Pairwise (fun a b => a ≤ b)
      ((ConversionWorker.run (fun _ => true) ["a.png", "b.txt"]).1.map Prod.fst)) :=
  ⟨by decide, claim_C7 (fun _ => true) ["a.png", "b.txt"] (by decide)⟩

/-- Claim C7 counterexample: the claim as written requires the emission at
0-based index 29 of a 50-file batch to carry floor(29 / 50 * 100) = 58, but
the program computes int((29/50)*100) in binary64 floats: 29/50 rounds to
0.57999999999999996, and times 100 stays below 58, so the worker emits 57. -/
theorem claim_C7_counterexample :
    ((ConversionWorker.run (fun _ => true) pyFiles50).1.map Prod.fst).get? 29 = some 57 ∧
    (29 * 100) / 50 = 58 := by decide

/-- Claim C9: running the worker on an empty file list emits no per-file
progress notifications (so the index/total division in the emission is never
evaluated) and completes with success = true and the message
"Converted 0 of 0 files successfully". -/
theorem claim_C9 (converter : String → Bool) :
    ConversionWorker.run converter [] =
      ([], (true, "Converted 0 of 0 files successfully")) := by
  simp only [ConversionWorker.run, ConversionWorker.runFrom]
  decide

/-- Claim C8: the four fixed extension sets of the format classifier are
pairwise disjoint — every pairwise intersection is empty, so no extension
appears in more than one set. -/
theorem claim_C8 :
    image_extensions.inter video_extensions = [] ∧
    image_extensions.inter document_extensions = [] ∧
    image_extensions.inter audio_extensions = [] ∧
    video_extensions.inter document_extensions = [] ∧
    video_extensions.inter audio_extensions = [] ∧
    document_extensions.inter audio_extensions = [] := by decide

/-- Claim C10: for every filesystem, MIME table and path, if the path does
not exist then get_file_type returns "unknown" immediately — even when the
extension belongs to a recognized set. -/
theorem claim_C10 (fs : FileSystem) (guessType : String → Option String) (p : String)
    (h : fs.pathExists p = false) :
    get_file_type fs guessType p = .ok "unknown" := by
  simp [get_file_type, h]

/-- Witness for claim C10: "photo.png" has a recognized image extension, yet
on a filesystem where it does not exist the classifier returns "unknown". -/
theorem claim_C10_witness :
    fsNoneExist.pathExists "photo.png" = false ∧
    get_file_type fsNoneExist (fun _ => none) "photo.png" = .ok "unknown" :=
  ⟨rfl, claim_C10 fsNoneExist (fun _ => none) "photo.png" rfl⟩

/-- Claim C4 is violated by the code (code bug): on an existing but
unreadable or non-regular path whose extension is in no set and which gets no
MIME guess, get_file_type falls through to imghdr.what, whose open() raises;
the OSError propagates instead of yielding "unknown". -/
theorem claim_C4 :
    get_file_type fsUnreadable (fun _ => none) "/data/blob.xyz2" =
      .error .oserror := rfl

/-- Claim C3 (amended): the path resolver always returns a path ending in
exactly "." followed by the lower-cased output format with ALL dots removed
(the code's replace(".", "") strips every dot, not only a leading one); the
base name prepended to it is the input's file name with its final extension
removed (os.path.splitext semantics).  Includes the spec scenario
resolve("/in/report.v2.docx", ".PDF", "/out") = "/out/report.v2.pdf". -/
theorem claim_C3 :
    (∀ input_path output_format output_dir : String,
      ('.' :: (normalize_output_format output_format).data) <:+
        (get_output_path input_path output_format output_dir).data) ∧
    (∀ input_path output_format output_dir : String,
      (get_output_path input_path output_format output_dir).data =
        joinChars output_dir.data
          ((splitextChars (basenameChars input_path.data)).1 ++
            '.' :: (normalize_output_format output_format).data)) ∧
    get_output_path "/in/report.v2.docx" ".PDF" "/out" = "/out/report.v2.pdf" := by
  refine ⟨?_, fun i f o => rfl, by decide⟩
  intro i f o
  show ('.' :: (normalize_output_format f).data) <:+
    joinChars o.data
      ((splitextChars (basenameChars i.data)).1 ++ '.' :: (normalize_output_format f).data)
  unfold joinChars
  split
  · exact ⟨(splitextChars (basenameChars i.data)).1, rfl⟩
  split
  · exact ⟨o.data ++ (splitextChars (basenameChars i.data)).1, by simp⟩
  · exact ⟨o.data ++ '/' :: (splitextChars (basenameChars i.data)).1, by simp⟩

/-- Claim C3 counterexample: with output_format = "p.df" the claim as written
fails — the result "/out/a.pdf" does not end in "." followed by the
lower-cased format with only a leading dot stripped (which would be ".p.df"),
because the code removes every dot from the format. -/
theorem claim_C3_counterexample :
    ¬ (('.' :: (specStripLeadingDot "p.df").data) <:+
        (get_output_path "/in/a.png" "p.df" "/out").data) := by decide

/-- Every format registered in some converter's SUPPORTED_OUTPUT_FORMATS is
dispatched to a converter whose SUPPORTED_OUTPUT_FORMATS contains it. -/
theorem dispatch_hits : ∀ fmt ∈ allRegisteredFormats,
    ∃ k, get_converter_for_format fmt = some k ∧ fmt ∈ supportedOutputs k := by decide

/-- Claim C2: for every output format registered in any converter's
SUPPORTED_OUTPUT_FORMATS, get_converter_for_format returns some converter
whose SUPPORTED_OUTPUT_FORMATS contains the format (for "gif", registered by
the video converter, dispatch returns the image converter, which also
registers it); for a format registered by no converter it returns none. -/
theorem claim_C2 (fmt : String) :
    (∀ k, fmt ∈ supportedOutputs k →
      ∃ kk, get_converter_for_format fmt = some kk ∧ fmt ∈ supportedOutputs kk) ∧
    ((∀ k, fmt ∉ supportedOutputs k) → get_converter_for_format fmt = none) := by
  constructor
  · intro k hk
    apply dispatch_hits
    cases k <;>
      simp only [supportedOutputs] at hk <;>
      simp [allRegisteredFormats, List.mem_append, hk]
  · intro hyp
    have h1 : fmt ∉ (["png", "jpg", "jpeg", "gif", "webp", "tiff", "bmp", "svg"] : List String) :=
      hyp .image
    have h2 : fmt ∉ (["mp4", "avi", "mkv", "mov", "webm"] : List String) := by
      intro hm
      apply hyp .video
      simp only [supportedOutputs, VideoConverter.SUPPORTED_OUTPUT_FORMATS]
      simp only [List.mem_cons, List.not_mem_nil, or_false] at hm ⊢
      tauto
    have h3 : fmt ∉
        (["pdf", "docx", "txt", "rtf", "odt", "xlsx", "csv", "pptx", "html"] : List String) :=
      hyp .document
    have h4 : fmt ∉ (["mp3", "wav", "flac", "aac", "ogg"] : List String) :=
      hyp .audio
    simp [get_converter_for_format, h1, h2, h3, h4]

/-- Witness for claim C2: "gif" (registered by the video converter) is
dispatched to a converter that registers it, and the unregistered "zip"
dispatches to none. -/
theorem claim_C2_witness :
    (∃ kk, get_converter_for_format "gif" = some kk ∧ "gif" ∈ supportedOutputs kk) ∧
    get_converter_for_format "zip" = none :=
  ⟨(claim_C2 "gif").1 .video (by decide), (claim_C2 "zip").2 (by decide)⟩

/-- With an always-raising route delegate, every mapped route catches the
error in its helper and yields false, and an unmapped pair is false — so the
route dispatch always returns the value false. -/
theorem route_convert_err (rdel : String → String → String → Except PyError Bool)
    (e : PyError) (h : ∀ r a b, rdel r a b = Except.error e)
    (ie onf ip op : String) :
    DocumentConverter.route_convert rdel ie onf ip op = .ok false := by
  unfold DocumentConverter.route_convert
  simp only [h]
  split_ifs <;> rfl

/-- Claim C5: for each of the four converters, an exception raised by the
delegate library or subprocess during the conversion is caught inside convert
and turned into a false return — whenever the delegate raises, the caller
receives the boolean false, never an exception (convert is Bool-valued by the
try/except wrapper pyTry). -/
theorem claim_C5 (fs : FileSystem) (e : PyError)
    (input_path output_format output_dir : String) (options : ConvOptions) :
    (∀ del : String → String → ConvOptions → Except PyError Bool,
      (∀ a b o, del a b o = Except.error e) →
      ImageConverter.convert fs del input_path output_format output_dir options = false) ∧
    (∀ del : String → String → ConvOptions → Except PyError Bool,
      (∀ a b o, del a b o = Except.error e) →
      AudioConverter.convert fs del input_path output_format output_dir options = false) ∧
    (∀ del : String → String → ConvOptions → Except PyError Bool,
      (∀ a b o, del a b o = Except.error e) →
      VideoConverter.convert fs del input_path output_format output_dir options = false) ∧
    (∀ rdel : String → String → String → Except PyError Bool,
      (∀ r a b, rdel r a b = Except.error e) →
      DocumentConverter.convert fs rdel input_path output_format output_dir options = false) := by
  refine ⟨?_, ?_, ?_, ?_⟩
  · intro del hdel
    simp only [ImageConverter.convert, ImageConverter.convert_body, hdel]
    repeat' split
    all_goals rfl
  · intro del hdel
    simp only [AudioConverter.convert, AudioConverter.convert_body, hdel]
    repeat' split
    all_goals rfl
  · intro del hdel
    simp only [VideoConverter.convert, VideoConverter.convert_body, hdel]
    repeat' split
    all_goals rfl
  · intro rdel hdel
    simp only [DocumentConverter.convert, DocumentConverter.convert_body,
      route_convert_err rdel e hdel]
    repeat' split
    all_goals rfl

/-- Witness for claim C5: with an always-raising delegate each converter
returns false on a concrete valid request. -/
theorem claim_C5_witness :
    ImageConverter.convert fsNoneExist errDelegate "a.png" "png" "/out" opts0 = false ∧
    AudioConverter.convert fsNoneExist errDelegate "a.mp3" "mp3" "/out" opts0 = false ∧
    VideoConverter.convert fsNoneExist errDelegate "a.mp4" "mp4" "/out" opts0 = false ∧
    DocumentConverter.convert fsNoneExist errRouteDelegate "a.pdf" "docx" "/out" opts0 = false :=
  ⟨(claim_C5 fsNoneExist .oserror "a.png" "png" "/out" opts0).1 errDelegate (fun _ _ _ => rfl),
   (claim_C5 fsNoneExist .oserror "a.mp3" "mp3" "/out" opts0).2.1 errDelegate (fun _ _ _ => rfl),
   (claim_C5 fsNoneExist .oserror "a.mp4" "mp4" "/out" opts0).2.2.1 errDelegate (fun _ _ _ => rfl),
   (claim_C5 fsNoneExist .oserror "a.pdf" "docx" "/out" opts0).2.2.2 errRouteDelegate
     (fun _ _ _ => rfl)⟩

/-- Claim C6: for each converter, when the input and output extensions pass
validation but the resolved output path already exists and the overwrite
option is false or absent, convert returns false for EVERY delegate — the
result is independent of the delegate, so the delegate is never invoked and
the pre-existing destination is untouched (in this embedding only the
delegate writes files). -/
theorem claim_C6 :
    (∀ (fs : FileSystem) (i f d : String) (o : ConvOptions),
      input_extension_of i ∈ ImageConverter.SUPPORTED_INPUT_FORMATS →
      normalize_output_format f ∈ ImageConverter.SUPPORTED_OUTPUT_FORMATS →
      fs.pathExists (get_output_path i (normalize_output_format f) d) = true →
      o.overwrite.getD false = false →
      ∀ del, ImageConverter.convert fs del i f d o = false) ∧
    (∀ (fs : FileSystem) (i f d : String) (o : ConvOptions),
      input_extension_of i ∈ AudioConverter.SUPPORTED_INPUT_FORMATS →
      normalize_output_format f ∈ AudioConverter.SUPPORTED_OUTPUT_FORMATS →
      fs.pathExists (get_output_path i (normalize_output_format f) d) = true →
      o.overwrite.getD false = false →
      ∀ del, AudioConverter.convert fs del i f d o = false) ∧
    (∀ (fs : FileSystem) (i f d : String) (o : ConvOptions),
      input_extension_of i ∈ VideoConverter.SUPPORTED_INPUT_FORMATS →
      normalize_output_format f ∈ VideoConverter.SUPPORTED_OUTPUT_FORMATS →
      fs.pathExists (get_output_path i (normalize_output_format f) d) = true →
      o.overwrite.getD false = false →
      ∀ del, VideoConverter.convert fs del i f d o = false) ∧
    (∀ (fs : FileSystem) (i f d : String) (o : ConvOptions),
      input_extension_of i ∈ DocumentConverter.SUPPORTED_INPUT_FORMATS →
      normalize_output_format f ∈ DocumentConverter.SUPPORTED_OUTPUT_FORMATS →
      fs.pathExists (get_output_path i (normalize_output_format f) d) = true →
      o.overwrite.getD false = false →
      ∀ del, DocumentConverter.convert fs del i f d o = false) := by
  refine ⟨?_, ?_, ?_, ?_⟩
  · intro fs i f d o h1 h2 h3 h4 del
    simp [ImageConverter.convert, ImageConverter.convert_body, pyTry, h1, h2, h3, h4]
  · intro fs i f d o h1 h2 h3 h4 del
    simp [AudioConverter.convert, AudioConverter.convert_body, pyTry, h1, h2, h3, h4]
  · intro fs i f d o h1 h2 h3 h4 del
    simp [VideoConverter.convert, VideoConverter.convert_body, pyTry, h1, h2, h3, h4]
  · intro fs i f d o h1 h2 h3 h4 del
    simp [DocumentConverter.convert, DocumentConverter.convert_body, pyTry, h1, h2, h3, h4]

/-- Witness for claim C6: on a filesystem where the destination exists, each
converter returns false on a concrete valid request even with an
always-succeeding delegate. -/
theorem claim_C6_witness :
    ImageConverter.convert fsAllExist okDelegate "a.png" "png" "/out" opts0 = false ∧
    AudioConverter.convert fsAllExist okDelegate "a.mp3" "mp3" "/out" opts0 = false ∧
    VideoConverter.convert fsAllExist okDelegate "a.mp4" "mp4" "/out" opts0 = false ∧
    DocumentConverter.convert fsAllExist okRouteDelegate "a.pdf" "docx" "/out" opts0 = false :=
  ⟨claim_C6.1 fsAllExist "a.png" "png" "/out" opts0 (by decide) (by decide) rfl rfl okDelegate,
   claim_C6.2.1 fsAllExist "a.mp3" "mp3" "/out" opts0 (by decide) (by decide) rfl rfl okDelegate,
   claim_C6.2.2.1 fsAllExist "a.mp4" "mp4" "/out" opts0 (by decide) (by decide) rfl rfl okDelegate,
   claim_C6.2.2.2 fsAllExist "a.pdf" "docx" "/out" opts0 (by decide) (by decide) rfl rfl
     okRouteDelegate⟩
